import Mathlib

/-!
Shallow embedding of the `primitive_db` table/record storage and
query-evaluation engine (`src/primitive_db/core.py`, `models.py`,
`decorators.py`, `utils.py`).

Records are Python dicts, modelled as insertion-ordered association lists;
the schema store, row store and the select cache are likewise dicts keyed
by strings.  Python exceptions become an explicit `DBError` value; each
`Database` method becomes a function from a `DBState` to a result paired
with the successor state.  The `loads` field is a ghost counter of
`load_table_data` calls, used to express "the row store was (not) re-read".
-/

namespace PrimDB

/-- Typed values stored in records: the engine only ever stores Python
`int`, `str` and `bool` values (`_validate_value`). -/
inductive Value where
  | int (n : Int)
  | str (s : String)
  | bool (b : Bool)
deriving DecidableEq, Repr

/-- Python `==` on the stored value types.  Python's `bool` is a subclass
of `int`, so `True == 1` and `False == 0`; strings never equal
ints or bools. -/
def Value.pyEq : Value → Value → Bool
  | .int a, .int b => a == b
  | .str a, .str b => a == b
  | .bool a, .bool b => a == b
  | .int a, .bool b => a == (if b then 1 else 0)
  | .bool a, .int b => (if a then 1 else 0) == b
  | _, _ => false

/-- Does a value have the Python type named by a column type tag? -/
def typeMatches : Value → String → Bool
  | .int _, "int" => true
  | .str _, "str" => true
  | .bool _, "bool" => true
  | _, _ => false

/-- `models.Column`: a named, typed column. -/
structure Column where
  name : String
  type : String
deriving DecidableEq, Repr

/-- `models.Table`: a named table with an ordered column list. -/
structure Table where
  name : String
  columns : List Column
deriving DecidableEq, Repr

/-- `Table.__init__`: always prepends the `ID:int` column, then appends
the caller's columns verbatim (no duplicate-name check). -/
def Table.new (name : String) (cols : List Column) : Table :=
  ⟨name, ⟨"ID", "int"⟩ :: cols⟩

/-- `Table.get_column`: first column with the given name, if any
(the Python version raises `ValueError`, mapped by the callers). -/
def Table.get_column (t : Table) (n : String) : Option Column :=
  t.columns.find? (fun c => c.name == n)

/-- Modelled from the spec: `constants.py` is not under `src/`; §3 of the
spec fixes the column type enum to int, str and bool, and
`_validate_value` hardcodes the same three tags. -/
def VALID_TYPES : List String := ["int", "str", "bool"]

/-- Python whitespace stripped by `int(str)` (ASCII subset). -/
def isPyWs (c : Char) : Bool :=
  c == ' ' || c == '\t' || c == '\n' || c == '\x0d' || c == '\x0b' || c == '\x0c'

/-- Strip leading and trailing whitespace from a character list. -/
def stripWs (cs : List Char) : List Char :=
  ((cs.dropWhile isPyWs).reverse.dropWhile isPyWs).reverse

/-- Digit-run parser for CPython `int()`: after the first digit, a single
underscore may separate digit groups. -/
def pyDigitsCore : List Char → Nat → Option Nat
  | [], acc => some acc
  | '_' :: c :: rest, acc =>
      if c.isDigit then pyDigitsCore rest (acc * 10 + (c.toNat - '0'.toNat)) else none
  | ['_'], _ => none
  | c :: rest, acc =>
      if c.isDigit then pyDigitsCore rest (acc * 10 + (c.toNat - '0'.toNat)) else none

/-- A nonempty digit run (first character must be a digit). -/
def pyDigits : List Char → Option Nat
  | [] => none
  | c :: rest => if c.isDigit then pyDigitsCore rest (c.toNat - '0'.toNat) else none

/-- CPython `int(str)` on ASCII input: optional surrounding whitespace,
optional sign, base-10 digits with optional single underscores between
digit groups.  (Non-ASCII digits and non-ASCII whitespace, which CPython
also accepts, are outside the model.) -/
def pyInt (s : String) : Option Int :=
  match stripWs s.data with
  | '+' :: rest => (pyDigits rest).map Int.ofNat
  | '-' :: rest => (pyDigits rest).map (fun n => -(Int.ofNat n))
  | cs => (pyDigits cs).map Int.ofNat

/-- Python `str.lower()` on ASCII input (`Char.toLower` maps exactly the
ASCII uppercase letters; the non-ASCII case mappings of Python's unicode
`lower` cannot produce the ASCII keywords compared against here). -/
def pyLower (s : String) : String := ⟨s.data.map Char.toLower⟩

/-- The `str` branch of `_validate_value`: strip one pair of surrounding
double quotes if present (Python `value.startswith('"') and
value.endswith('"')` then `value[1:-1]`, which on the one-character
string `"` yields the empty string). -/
def pyStrCoerce (s : String) : String :=
  if s.data.head? = some '"' ∧ s.data.getLast? = some '"' then ⟨(s.data.drop 1).dropLast⟩ else s

/-- The typed error kinds of `core.py`.  `valueError` stands for Python's
built-in `ValueError`, which is not a subclass of the library's
`ValidationError`. -/
inductive DBError where
  | tableExists (msg : String)
  | tableNotFound (msg : String)
  | validationError (msg : String)
  | recordNotFound (msg : String)
  | valueError (msg : String)
deriving DecidableEq, Repr

/-- `Database._validate_value`: coerce a raw string to the column type.
The wrapped interpreter-supplied detail text of the caught `ValueError`
(e.g. CPython's "invalid literal for int()" text) is abstracted away in
the int-failure message; no claim inspects it. -/
def _validate_value (value : String) (expected_type : String) : Except DBError Value :=
  if expected_type = "int" then
    match pyInt value with
    | some n => .ok (.int n)
    | none => .error (.validationError ("Не удалось преобразовать '" ++ value ++ "' в тип int"))
  else if expected_type = "str" then
    .ok (.str (pyStrCoerce value))
  else if expected_type = "bool" then
    if ["true", "1", "yes"].contains (pyLower value) then .ok (.bool true)
    else if ["false", "0", "no"].contains (pyLower value) then .ok (.bool false)
    else .error (.validationError
      ("Не удалось преобразовать '" ++ value ++ "' в тип bool: Некорректное булево значение: " ++ value))
  else .error (.validationError ("Неизвестный тип: " ++ expected_type))

deriving instance DecidableEq for Except

/-- One record: a Python dict from column name to value, in insertion
order. -/
abbrev Record := List (String × Value)

/-- Python dict assignment `m[k] = v`: replace in place if the key is
present (keeping its position), otherwise append. -/
def pySet {α : Type} : List (String × α) → String → α → List (String × α)
  | [], k, v => [(k, v)]
  | (k', v') :: rest, k, v =>
      if k' = k then (k, v) :: rest else (k', v') :: pySet rest k v

/-- Python `del m[k]` (and file removal): drop the key. -/
def pyDel {α : Type} (m : List (String × α)) (k : String) : List (String × α) :=
  m.filter (fun p => !(p.1 == k))

/-- The persistent and in-memory state of one `Database` instance:
the schema store (`self.tables`, persisted to the metadata file), the
per-table row files, the select cache, and a ghost counter of row-file
reads. -/
structure DBState where
  tables : List (String × Table)
  rows : List (String × List Record)
  cache : List (String × List Record)
  loads : Nat
deriving DecidableEq, Repr

/-- A fresh database over empty stores. -/
def initState : DBState := ⟨[], [], [], 0⟩

/-- `utils.load_table_data`: the table's row file, or `[]` when the file
does not exist. -/
def load_table_data (st : DBState) (t : String) : List Record :=
  (List.lookup t st.rows).getD []

/-- `record["ID"]`.  In states reachable through the API the `ID` field is
always present and (when every column literally named `ID` has type `int`)
holds an int; the fallback `0` is only hit outside that envelope, where
the Python code would raise instead. -/
def idVal (r : Record) : Int :=
  match List.lookup "ID" r with
  | some (.int n) => n
  | _ => 0

/-- `max(record["ID"] for record in data)` for nonempty `data`. -/
def maxIds : List Record → Int
  | [] => 0
  | r :: rs => rs.foldl (fun m r' => max m (idVal r')) (idVal r)

/-- The f-string rendering of an optional argument (`None` for absent). -/
def optStr : Option String → String
  | none => "None"
  | some s => s

/-- The select-cache key `f"{table_name}:{where_column}:{where_value}"`. -/
def cacheKey (t : String) (wc wv : Option String) : String :=
  t ++ ":" ++ optStr wc ++ ":" ++ optStr wv

/-- The equality test applied to each record by select/update/delete:
`record.get(where_column) == typed_value` (Python `None == x` is false
for every stored value `x`). -/
def recordHit (wc : String) (tv : Value) (r : Record) : Bool :=
  match List.lookup wc r with
  | some x => x.pyEq tv
  | none => false

/-- `", ".join(f"ID={id}" for id in ids)`. -/
def idsStr (ids : List Int) : String :=
  String.intercalate ", " (ids.map (fun i => "ID=" ++ toString i))

/-- `"name:type, ..."` rendering of a column list. -/
def columnsStr (cols : List Column) : String :=
  String.intercalate ", " (cols.map (fun c => c.name ++ ":" ++ c.type))

/-- Split a character list at the first colon, if any: the combination of
Python's `":" in spec` test (`none` result) and `spec.split(":", 1)`. -/
def splitFirstColon : List Char → Option (List Char × List Char)
  | [] => none
  | ':' :: rest => some ([], rest)
  | c :: rest => (splitFirstColon rest).map (fun p => (c :: p.1, p.2))

/-- One `"name:type"` spec parsed exactly as in `Database.create_table`:
`":" in spec`, then `spec.split(":", 1)`, non-emptiness of both parts,
and membership of the type in `VALID_TYPES`.  The raised Python error is
the built-in `ValueError`. -/
def parseSpec (spec : String) : Except DBError Column :=
  match splitFirstColon spec.data with
  | none => .error (.valueError ("Некорректное значение: " ++ spec ++ ". Попробуйте снова."))
  | some (nm, ty) =>
      let name : String := ⟨nm⟩
      let col_type : String := ⟨ty⟩
      if name = "" ∨ col_type = "" then
        .error (.valueError ("Некорректное значение: " ++ spec ++ ". Попробуйте снова."))
      else if VALID_TYPES.contains col_type then .ok ⟨name, col_type⟩
      else .error (.valueError ("Некорректное значение: " ++ col_type ++ ". Попробуйте снова."))

/-- The spec-parsing loop of `create_table`: left to right, first error
aborts. -/
def parseSpecs : List String → Except DBError (List Column)
  | [] => .ok []
  | s :: rest =>
      match parseSpec s with
      | .error e => .error e
      | .ok c =>
          match parseSpecs rest with
          | .error e => .error e
          | .ok cs => .ok (c :: cs)

/-- `Database.create_table`: existence check, spec validation, then
`Table(...)` (which prepends `ID:int`), registration and persistence.
Nothing is added to the schema store on any failure. -/
def create_table (st : DBState) (t : String) (specs : List String) :
    (Except DBError String) × DBState :=
  match List.lookup t st.tables with
  | some _ => (.error (.tableExists ("Ошибка: Таблица \"" ++ t ++ "\" уже существует.")), st)
  | none =>
      match parseSpecs specs with
      | .error e => (.error e, st)
      | .ok cols =>
          let tbl := Table.new t cols
          (.ok ("Таблица \"" ++ t ++ "\" успешно создана со столбцами: " ++ columnsStr tbl.columns),
            { st with tables := pySet st.tables t tbl })

/-- `Database.drop_table` (confirmed path): remove the schema entry and
the row file.  The select cache is deliberately untouched — the source
does not call `_clear_select_cache` here. -/
def drop_table (st : DBState) (t : String) : (Except DBError String) × DBState :=
  match List.lookup t st.tables with
  | none => (.error (.tableNotFound ("Ошибка: Таблица \"" ++ t ++ "\" не существует.")), st)
  | some _ =>
      (.ok ("Таблица \"" ++ t ++ "\" успешно удалена."),
        { st with tables := pyDel st.tables t, rows := pyDel st.rows t })

/-- `Database.get_table`. -/
def get_table (st : DBState) (t : String) : Except DBError Table :=
  match List.lookup t st.tables with
  | none => .error (.tableNotFound ("Таблица \"" ++ t ++ "\" не существует."))
  | some tbl => .ok tbl

/-- The insert loop `for i, value in enumerate(values): record[column.name]
= validated` over the non-ID columns (positional). -/
def buildFields (rec : Record) : List (String × Column) → Except DBError Record
  | [] => .ok rec
  | (v, col) :: rest =>
      match _validate_value v col.type with
      | .error e => .error e
      | .ok tv => buildFields (pySet rec col.name tv) rest

/-- `Database.insert`: count check, monotonic ID assignment, per-column
coercion, append, persist, cache invalidation. -/
def insert (st : DBState) (t : String) (values : List String) :
    (Except DBError String) × DBState :=
  match List.lookup t st.tables with
  | none => (.error (.tableNotFound ("Таблица \"" ++ t ++ "\" не существует.")), st)
  | some tbl =>
      if values.length ≠ tbl.columns.length - 1 then
        (.error (.validationError
          ("Ожидается " ++ toString (tbl.columns.length - 1) ++ " значений, получено " ++
            toString values.length)), st)
      else
        let data := load_table_data st t
        let st1 : DBState := { st with loads := st.loads + 1 }
        let newId : Int := if data.isEmpty then 1 else maxIds data + 1
        match buildFields [("ID", .int newId)] (values.zip (tbl.columns.drop 1)) with
        | .error e => (.error e, st1)
        | .ok rec =>
            (.ok ("Запись с ID=" ++ toString newId ++ " успешно добавлена в таблицу \"" ++ t ++ "\"."),
              { st1 with rows := pySet st1.rows t (data ++ [rec]), cache := [] })

/-- `Database.select`: the cache is consulted first on the raw key, before
the table-existence check; on a miss `_execute_select` runs (existence
check, row load, optional predicate) and a successful result is stored
under the key.  Exceptions propagate without being cached. -/
def select (st : DBState) (t : String) (wc wv : Option String) :
    (Except DBError (List Record)) × DBState :=
  let key := cacheKey t wc wv
  match List.lookup key st.cache with
  | some res => (.ok res, st)
  | none =>
      match List.lookup t st.tables with
      | none => (.error (.tableNotFound ("Таблица \"" ++ t ++ "\" не существует.")), st)
      | some tbl =>
          let data := load_table_data st t
          let st1 : DBState := { st with loads := st.loads + 1 }
          match wc, wv with
          | some c, some v =>
              match tbl.get_column c with
              | none => (.error (.validationError ("Столбец '" ++ c ++ "' не найден в таблице")), st1)
              | some col =>
                  match _validate_value v col.type with
                  | .error e => (.error e, st1)
                  | .ok tv =>
                      let filtered := data.filter (recordHit c tv)
                      (.ok filtered, { st1 with cache := pySet st1.cache key filtered })
          | _, _ => (.ok data, { st1 with cache := pySet st1.cache key data })

/-- `Database.update`: column checks (set column first), row load, both
coercions (where first), in-place overwrite of matches; zero matches
raise before anything is persisted; ids are read from the records after
the overwrite. -/
def update (st : DBState) (t sc sv wc wv : String) :
    (Except DBError String) × DBState :=
  match List.lookup t st.tables with
  | none => (.error (.tableNotFound ("Таблица \"" ++ t ++ "\" не существует.")), st)
  | some tbl =>
      match tbl.get_column sc with
      | none => (.error (.validationError ("Столбец '" ++ sc ++ "' не найден")), st)
      | some set_col =>
          match tbl.get_column wc with
          | none => (.error (.validationError ("Столбец '" ++ wc ++ "' не найден")), st)
          | some where_col =>
              let data := load_table_data st t
              let st1 : DBState := { st with loads := st.loads + 1 }
              match _validate_value wv where_col.type with
              | .error e => (.error e, st1)
              | .ok typed_where =>
                  match _validate_value sv set_col.type with
                  | .error e => (.error e, st1)
                  | .ok typed_set =>
                      let data' := data.map
                        (fun r => if recordHit wc typed_where r then pySet r sc typed_set else r)
                      let updated_ids := data.filterMap
                        (fun r => if recordHit wc typed_where r
                          then some (idVal (pySet r sc typed_set)) else none)
                      if updated_ids.isEmpty then
                        (.error (.recordNotFound
                          ("Записи с условием " ++ wc ++ "=" ++ wv ++ " не найдены")), st1)
                      else
                        (.ok (if updated_ids.length = 1 then
                            "Запись с " ++ idsStr updated_ids ++ " в таблице \"" ++ t ++
                              "\" успешно обновлена."
                          else
                            toString updated_ids.length ++ " записей (" ++ idsStr updated_ids ++
                              ") в таблице \"" ++ t ++ "\" успешно обновлены."),
                          { st1 with rows := pySet st1.rows t data', cache := [] })

/-- `Database.delete` (confirmed path): column check, row load, coercion,
removal of all matches (survivors keep order); zero matches raise before
anything is persisted. -/
def delete (st : DBState) (t wc wv : String) : (Except DBError String) × DBState :=
  match List.lookup t st.tables with
  | none => (.error (.tableNotFound ("Таблица \"" ++ t ++ "\" не существует.")), st)
  | some tbl =>
      match tbl.get_column wc with
      | none => (.error (.validationError ("Столбец '" ++ wc ++ "' не найден")), st)
      | some col =>
          let data := load_table_data st t
          let st1 : DBState := { st with loads := st.loads + 1 }
          match _validate_value wv col.type with
          | .error e => (.error e, st1)
          | .ok tv =>
              let to_delete := data.filter (recordHit wc tv)
              if to_delete.isEmpty then
                (.error (.recordNotFound
                  ("Записи с условием " ++ wc ++ "=" ++ wv ++ " не найдены")), st1)
              else
                let deleted_ids := to_delete.map idVal
                let data' := data.filter (fun r => !(recordHit wc tv r))
                (.ok (if deleted_ids.length = 1 then
                    "Запись с " ++ idsStr deleted_ids ++ " успешно удалена из таблицы \"" ++ t ++ "\"."
                  else
                    toString deleted_ids.length ++ " записей (" ++ idsStr deleted_ids ++
                      ") успешно удалены из таблицы \"" ++ t ++ "\"."),
                  { st1 with rows := pySet st1.rows t data', cache := [] })

/-- The operations a caller can issue against one `Database` instance. -/
inductive Op where
  | createTable (name : String) (specs : List String)
  | dropTable (name : String)
  | insertOp (name : String) (values : List String)
  | selectOp (name : String) (wc wv : Option String)
  | updateOp (name sc sv wc wv : String)
  | deleteOp (name wc wv : String)
deriving DecidableEq, Repr

/-- Run one operation for its state effect. -/
def applyOp (st : DBState) : Op → DBState
  | .createTable n specs => (create_table st n specs).2
  | .dropTable n => (drop_table st n).2
  | .insertOp n vs => (insert st n vs).2
  | .selectOp n wc wv => (select st n wc wv).2
  | .updateOp n sc sv wc wv => (update st n sc sv wc wv).2
  | .deleteOp n wc wv => (delete st n wc wv).2

/-- Run a sequence of operations from the fresh database. -/
def runOps (ops : List Op) : DBState := ops.foldl applyOp initState

/-- States reachable through the public API. -/
def Reachable (st : DBState) : Prop := ∃ ops, st = runOps ops

/-! ### Association-list lemmas -/

theorem lookup_pySet_self {α : Type} (m : List (String × α)) (k : String) (v : α) :
    List.lookup k (pySet m k v) = some v := by
  induction m with
  | nil => simp [pySet, List.lookup]
  | cons p rest ih =>
      obtain ⟨k', v'⟩ := p
      by_cases h : k' = k
      · simp [pySet, h, List.lookup]
      · have hb : (k == k') = false := beq_eq_false_iff_ne.mpr (fun hh => h hh.symm)
        simp [pySet, h, List.lookup, hb, ih]

theorem lookup_pySet_ne {α : Type} (m : List (String × α)) {k k' : String}
    (h : k' ≠ k) (v : α) : List.lookup k' (pySet m k v) = List.lookup k' m := by
  have hb : (k' == k) = false := beq_eq_false_iff_ne.mpr h
  induction m with
  | nil => simp [pySet, List.lookup, hb]
  | cons p rest ih =>
      obtain ⟨k₀, v₀⟩ := p
      by_cases hk : k₀ = k
      · subst hk
        simp [pySet, List.lookup, hb]
      · simp [pySet, hk, List.lookup, ih]

theorem lookup_pyDel_ne {α : Type} (m : List (String × α)) {k k' : String}
    (h : k' ≠ k) : List.lookup k' (pyDel m k) = List.lookup k' m := by
  induction m with
  | nil => simp [pyDel]
  | cons p rest ih =>
      obtain ⟨k₀, v₀⟩ := p
      by_cases hk : k₀ = k
      · subst hk
        have hb : (k' == k₀) = false := beq_eq_false_iff_ne.mpr h
        simpa [pyDel, List.lookup, hb] using ih
      · have hb : (k₀ == k) = false := beq_eq_false_iff_ne.mpr hk
        by_cases hk' : k' = k₀
        · simp [pyDel, List.lookup, hb, hk']
        · have hb' : (k' == k₀) = false := beq_eq_false_iff_ne.mpr hk'
          simpa [pyDel, List.lookup, hb, hb'] using ih

theorem lookup_pyDel_self {α : Type} (m : List (String × α)) (k : String) :
    List.lookup k (pyDel m k) = none := by
  induction m with
  | nil => simp [pyDel, List.lookup]
  | cons p rest ih =>
      obtain ⟨k₀, v₀⟩ := p
      by_cases hk : k₀ = k
      · subst hk
        simpa [pyDel, List.lookup] using ih
      · have hb : (k₀ == k) = false := beq_eq_false_iff_ne.mpr hk
        have hb' : (k == k₀) = false := beq_eq_false_iff_ne.mpr (fun hh => hk hh.symm)
        simpa [pyDel, List.lookup, hb, hb'] using ih

/-! ### Typing lemmas -/

theorem validate_typeMatches {v ty : String} {val : Value}
    (h : _validate_value v ty = .ok val) : typeMatches val ty = true := by
  unfold _validate_value at h
  split at h
  · rename_i hty
    subst hty
    split at h
    · injection h with h2
      subst h2
      rfl
    · exact absurd h (by simp)
  · split at h
    · rename_i hty
      subst hty
      injection h with h2
      subst h2
      rfl
    · split at h
      · rename_i hty
        subst hty
        split at h
        · injection h with h2
          subst h2
          rfl
        · split at h
          · injection h with h2
            subst h2
            rfl
          · exact absurd h (by simp)
      · exact absurd h (by simp)

theorem typeMatches_cases {x : Value} {ty : String} (h : typeMatches x ty = true) :
    (∃ n, x = .int n ∧ ty = "int") ∨ (∃ s, x = .str s ∧ ty = "str") ∨
      (∃ b, x = .bool b ∧ ty = "bool") := by
  cases x <;> (unfold typeMatches at h; split at h) <;> simp_all

theorem pyEq_iff_eq_of_typeMatches {a b : Value} {ty : String}
    (ha : typeMatches a ty = true) (hb : typeMatches b ty = true) :
    a.pyEq b = true ↔ a = b := by
  rcases typeMatches_cases ha with ⟨n, rfl, rfl⟩ | ⟨s, rfl, rfl⟩ | ⟨u, rfl, rfl⟩ <;>
    cases b <;> simp_all [typeMatches, Value.pyEq]

/-! ### `get_column` lemmas -/

theorem get_column_mem {tbl : Table} {n : String} {c : Column}
    (h : tbl.get_column n = some c) : c ∈ tbl.columns ∧ c.name = n := by
  refine ⟨List.mem_of_find?_eq_some h, ?_⟩
  have := List.find?_some h
  simpa [beq_iff_eq] using this

theorem get_column_unique {tbl : Table} {n : String} {c c' : Column}
    (hnodup : (tbl.columns.map Column.name).Nodup)
    (h : tbl.get_column n = some c) (hc' : c' ∈ tbl.columns) (hn : c'.name = n) :
    c' = c := by
  obtain ⟨hmem, hname⟩ := get_column_mem h
  exact List.inj_on_of_nodup_map hnodup hc' hmem (by rw [hn, hname])

/-! ### Record well-typedness -/

/-- Every value stored in a record is declared by some column of the
column list, with a matching Python type. -/
def WTcols (cols : List Column) (r : Record) : Prop :=
  ∀ k v, List.lookup k r = some v → ∃ c ∈ cols, c.name = k ∧ typeMatches v c.type = true

theorem WTcols_pySet {cols : List Column} {r : Record} {c : Column} {v : Value}
    (hr : WTcols cols r) (hc : c ∈ cols) (hv : typeMatches v c.type = true) :
    WTcols cols (pySet r c.name v) := by
  intro k x hk
  by_cases h : k = c.name
  · subst h
    rw [lookup_pySet_self] at hk
    exact ⟨c, hc, rfl, by simpa [← Option.some_inj.mp hk] using hv⟩
  · rw [lookup_pySet_ne _ h] at hk
    exact hr k x hk

theorem buildFields_WT {cols : List Column} :
    ∀ (pairs : List (String × Column)) (rec rec' : Record),
      (∀ p ∈ pairs, p.2 ∈ cols) → WTcols cols rec →
      buildFields rec pairs = .ok rec' → WTcols cols rec'
  | [], rec, rec', _, hrec, h => by
      simp [buildFields] at h
      rwa [← h]
  | (v, col) :: rest, rec, rec', hmem, hrec, h => by
      unfold buildFields at h
      cases hv : _validate_value v col.type with
      | error e => rw [hv] at h; exact absurd h (by simp)
      | ok tv =>
          rw [hv] at h
          exact buildFields_WT rest _ rec'
            (fun p hp => hmem p (List.mem_cons_of_mem _ hp))
            (WTcols_pySet hrec (hmem (v, col) (List.mem_cons_self _ _)) (validate_typeMatches hv))
            h

theorem buildFields_lookup_preserve {k : String} :
    ∀ (pairs : List (String × Column)) (rec rec' : Record),
      (∀ p ∈ pairs, p.2.name ≠ k) →
      buildFields rec pairs = .ok rec' → List.lookup k rec' = List.lookup k rec
  | [], rec, rec', _, h => by
      simp [buildFields] at h
      rw [← h]
  | (v, col) :: rest, rec, rec', hne, h => by
      unfold buildFields at h
      cases hv : _validate_value v col.type with
      | error e => rw [hv] at h; exact absurd h (by simp)
      | ok tv =>
          rw [hv] at h
          have := buildFields_lookup_preserve rest _ rec'
            (fun p hp => hne p (List.mem_cons_of_mem _ hp)) h
          rw [this, lookup_pySet_ne]
          exact fun hk => hne (v, col) (List.mem_cons_self _ _) hk.symm

/-! ### `maxIds` lemmas -/

theorem le_foldl_max : ∀ (l : List Record) (b : Int),
    b ≤ l.foldl (fun m r => max m (idVal r)) b
  | [], b => le_refl b
  | r :: rs, b =>
      le_trans (le_max_left b (idVal r)) (le_foldl_max rs (max b (idVal r)))

theorem mem_le_foldl_max {r : Record} : ∀ {l : List Record} (b : Int), r ∈ l →
    idVal r ≤ l.foldl (fun m r' => max m (idVal r')) b := by
  intro l
  induction l with
  | nil => intro b h; exact absurd h (List.not_mem_nil _)
  | cons a rs ih =>
      intro b h
      rcases List.mem_cons.mp h with rfl | h
      · exact le_trans (le_max_right b (idVal r)) (le_foldl_max rs _)
      · exact ih _ h

theorem lt_maxIds_succ {r : Record} {data : List Record} (h : r ∈ data) :
    idVal r < maxIds data + 1 := by
  cases data with
  | nil => exact absurd h (List.not_mem_nil _)
  | cons a rs =>
      rw [Int.lt_add_one_iff]
      rcases List.mem_cons.mp h with rfl | h
      · exact le_foldl_max rs (idVal r)
      · exact mem_le_foldl_max _ h

/-- The reachability invariant. -/
def Inv (st : DBState) : Prop :=
  (∀ u, List.lookup u st.rows ≠ none → List.lookup u st.tables ≠ none) ∧
  (∀ u tbl, List.lookup u st.tables = some tbl → (⟨"ID", "int"⟩ : Column) ∈ tbl.columns) ∧
  (∀ u tbl, List.lookup u st.tables = some tbl → ∀ r ∈ load_table_data st u, WTcols tbl.columns r)

theorem Inv_create (st : DBState) (t : String) (specs : List String) (h : Inv st) :
    Inv (create_table st t specs).2 := by
  unfold create_table
  cases hl : List.lookup t st.tables with
  | some tbl => simpa [hl] using h
  | none =>
      cases hp : parseSpecs specs with
      | error e => simpa [hl, hp] using h
      | ok cols =>
          simp only [hl, hp]
          obtain ⟨h1, h2, h3⟩ := h
          refine ⟨?_, ?_, ?_⟩
          · intro u hu
            by_cases hut : u = t
            · subst hut
              rw [lookup_pySet_self]
              simp
            · rw [lookup_pySet_ne _ hut]
              exact h1 u hu
          · intro u tbl hu
            by_cases hut : u = t
            · subst hut
              rw [lookup_pySet_self] at hu
              injection hu with hu
              rw [← hu]
              exact List.mem_cons_self _ _
            · rw [lookup_pySet_ne _ hut] at hu
              exact h2 u tbl hu
          · intro u tbl hu r hr
            by_cases hut : u = t
            · subst hut
              have hrow : List.lookup u st.rows = none := by
                by_contra hc
                exact (h1 u hc) hl
              rw [load_table_data] at hr
              simp [hrow] at hr
            · rw [lookup_pySet_ne _ hut] at hu
              exact h3 u tbl hu r hr

theorem Inv_drop (st : DBState) (t : String) (h : Inv st) : Inv (drop_table st t).2 := by
  unfold drop_table
  cases hl : List.lookup t st.tables with
  | none => simpa [hl] using h
  | some tbl0 =>
      simp only [hl]
      obtain ⟨h1, h2, h3⟩ := h
      refine ⟨?_, ?_, ?_⟩
      · intro u hu
        by_cases hut : u = t
        · subst hut
          rw [lookup_pyDel_self] at hu
          exact absurd rfl hu
        · rw [lookup_pyDel_ne _ hut] at hu
          rw [lookup_pyDel_ne _ hut]
          exact h1 u hu
      · intro u tbl hu
        by_cases hut : u = t
        · subst hut
          rw [lookup_pyDel_self] at hu
          exact absurd hu (by simp)
        · rw [lookup_pyDel_ne _ hut] at hu
          exact h2 u tbl hu
      · intro u tbl hu r hr
        by_cases hut : u = t
        · subst hut
          rw [lookup_pyDel_self] at hu
          exact absurd hu (by simp)
        · rw [lookup_pyDel_ne _ hut] at hu
          rw [load_table_data] at hr
          simp only [lookup_pyDel_ne _ hut] at hr
          exact h3 u tbl hu r hr

theorem WTcols_singleton {cols : List Column} {c : Column} (hc : c ∈ cols) {v : Value}
    (hv : typeMatches v c.type = true) : WTcols cols [(c.name, v)] := by
  intro k x hk
  by_cases hkc : k = c.name
  · subst hkc
    simp [List.lookup] at hk
    exact ⟨c, hc, rfl, hk ▸ hv⟩
  · rw [List.lookup, beq_eq_false_iff_ne.mpr hkc] at hk
    exact absurd hk (by simp)

theorem Inv_insert (st : DBState) (t : String) (values : List String) (h : Inv st) :
    Inv (insert st t values).2 := by
  unfold insert
  cases hl : List.lookup t st.tables with
  | none => simpa [hl] using h
  | some tbl =>
      simp only [hl]
      by_cases hlen : values.length = tbl.columns.length - 1
      · rw [if_neg (fun hne => hne hlen)]
        cases hb : buildFields [("ID", .int (if (load_table_data st t).isEmpty then 1
            else maxIds (load_table_data st t) + 1))] (values.zip (tbl.columns.drop 1)) with
        | error e =>
            simp only [hb]
            exact h
        | ok rec =>
            simp only [hb]
            obtain ⟨h1, h2, h3⟩ := h
            refine ⟨?_, ?_, ?_⟩
            · intro u hu
              by_cases hut : u = t
              · subst hut
                simp [hl]
              · exact h1 u (by rwa [lookup_pySet_ne _ hut] at hu)
            · exact h2
            · intro u tbl2 hu r hr
              by_cases hut : u = t
              · subst hut
                rw [hl] at hu
                injection hu with hu
                subst hu
                rw [load_table_data] at hr
                simp only [lookup_pySet_self, Option.getD_some] at hr
                rcases List.mem_append.mp hr with hr | hr
                · exact h3 u tbl hl r hr
                · have hrec : r = rec := by simpa using hr
                  subst hrec
                  refine buildFields_WT _ _ _ ?_ ?_ hb
                  · intro p hp
                    exact List.drop_subset 1 tbl.columns (List.of_mem_zip hp).2
                  · exact WTcols_singleton (h2 u tbl hl) rfl
              · rw [load_table_data] at hr
                simp only [lookup_pySet_ne _ hut] at hr
                exact h3 u tbl2 hu r hr
      · rw [if_pos hlen]
        exact h

theorem Inv_stores {st st' : DBState} (h : Inv st) (ht : st'.tables = st.tables)
    (hr : st'.rows = st.rows) : Inv st' := by
  obtain ⟨h1, h2, h3⟩ := h
  refine ⟨?_, ?_, ?_⟩
  · intro u hu
    rw [hr] at hu
    rw [ht]
    exact h1 u hu
  · intro u tbl hu
    rw [ht] at hu
    exact h2 u tbl hu
  · intro u tbl hu r hrr
    rw [ht] at hu
    rw [load_table_data, hr] at hrr
    exact h3 u tbl hu r hrr

theorem Inv_select (st : DBState) (t : String) (wc wv : Option String) (h : Inv st) :
    Inv (select st t wc wv).2 := by
  unfold select
  cases hc : List.lookup (cacheKey t wc wv) st.cache with
  | some res => simpa [hc] using h
  | none =>
      cases hl : List.lookup t st.tables with
      | none => simpa [hc, hl] using h
      | some tbl =>
          simp only [hc, hl]
          rcases wc with _ | c <;> rcases wv with _ | v
          · exact Inv_stores h rfl rfl
          · exact Inv_stores h rfl rfl
          · exact Inv_stores h rfl rfl
          · cases hg : tbl.get_column c with
            | none =>
                simp only [hg]
                exact Inv_stores h rfl rfl
            | some col =>
                cases hv : _validate_value v col.type with
                | error e =>
                    simp only [hg, hv]
                    exact Inv_stores h rfl rfl
                | ok tv =>
                    simp only [hg, hv]
                    exact Inv_stores h rfl rfl

theorem Inv_update (st : DBState) (t sc sv wc wv : String) (h : Inv st) :
    Inv (update st t sc sv wc wv).2 := by
  unfold update
  cases hl : List.lookup t st.tables with
  | none => simpa [hl] using h
  | some tbl =>
      simp only [hl]
      cases hgs : tbl.get_column sc with
      | none =>
          simp only [hgs]
          exact Inv_stores h rfl rfl
      | some set_col =>
          simp only [hgs]
          cases hgw : tbl.get_column wc with
          | none =>
              simp only [hgw]
              exact Inv_stores h rfl rfl
          | some where_col =>
              simp only [hgw]
              cases hvw : _validate_value wv where_col.type with
              | error e =>
                  simp only [hvw]
                  exact Inv_stores h rfl rfl
              | ok typed_where =>
                  simp only [hvw]
                  cases hvs : _validate_value sv set_col.type with
                  | error e =>
                      simp only [hvs]
                      exact Inv_stores h rfl rfl
                  | ok typed_set =>
                      simp only [hvs]
                      by_cases hz : (List.filterMap (fun r => if recordHit wc typed_where r
                          then some (idVal (pySet r sc typed_set)) else none)
                          (load_table_data st t)).isEmpty
                      · rw [if_pos hz]
                        exact Inv_stores h rfl rfl
                      · rw [if_neg hz]
                        obtain ⟨h1, h2, h3⟩ := h
                        refine ⟨?_, ?_, ?_⟩
                        · intro u hu
                          by_cases hut : u = t
                          · subst hut
                            simp [hl]
                          · exact h1 u (by rwa [lookup_pySet_ne _ hut] at hu)
                        · exact h2
                        · intro u tbl2 hu r hr
                          by_cases hut : u = t
                          · subst hut
                            rw [hl] at hu
                            injection hu with hu
                            subst hu
                            rw [load_table_data] at hr
                            simp only [lookup_pySet_self, Option.getD_some] at hr
                            rcases List.mem_map.mp hr with ⟨r0, hr0, hfr⟩
                            subst hfr
                            by_cases hhit : recordHit wc typed_where r0
                            · rw [if_pos hhit]
                              obtain ⟨hmem, hname⟩ := get_column_mem hgs
                              rw [← hname]
                              exact WTcols_pySet (h3 u tbl hl r0 hr0) hmem
                                (validate_typeMatches hvs)
                            · rw [if_neg hhit]
                              exact h3 u tbl hl r0 hr0
                          · rw [load_table_data] at hr
                            simp only [lookup_pySet_ne _ hut] at hr
                            exact h3 u tbl2 hu r hr

theorem Inv_delete (st : DBState) (t wc wv : String) (h : Inv st) :
    Inv (delete st t wc wv).2 := by
  unfold delete
  cases hl : List.lookup t st.tables with
  | none => simpa [hl] using h
  | some tbl =>
      simp only [hl]
      cases hg : tbl.get_column wc with
      | none =>
          simp only [hg]
          exact Inv_stores h rfl rfl
      | some col =>
          simp only [hg]
          cases hv : _validate_value wv col.type with
          | error e =>
              simp only [hv]
              exact Inv_stores h rfl rfl
          | ok tv =>
              simp only [hv]
              by_cases hz : ((load_table_data st t).filter (recordHit wc tv)).isEmpty
              · rw [if_pos hz]
                exact Inv_stores h rfl rfl
              · rw [if_neg hz]
                obtain ⟨h1, h2, h3⟩ := h
                refine ⟨?_, ?_, ?_⟩
                · intro u hu
                  by_cases hut : u = t
                  · subst hut
                    simp [hl]
                  · exact h1 u (by rwa [lookup_pySet_ne _ hut] at hu)
                · exact h2
                · intro u tbl2 hu r hr
                  by_cases hut : u = t
                  · subst hut
                    rw [hl] at hu
                    injection hu with hu
                    subst hu
                    rw [load_table_data] at hr
                    simp only [lookup_pySet_self, Option.getD_some] at hr
                    exact h3 u tbl hl r (List.mem_of_mem_filter hr)
                  · rw [load_table_data] at hr
                    simp only [lookup_pySet_ne _ hut] at hr
                    exact h3 u tbl2 hu r hr

theorem Inv_applyOp (st : DBState) (op : Op) (h : Inv st) : Inv (applyOp st op) := by
  cases op with
  | createTable n specs => exact Inv_create st n specs h
  | dropTable n => exact Inv_drop st n h
  | insertOp n vs => exact Inv_insert st n vs h
  | selectOp n wc wv => exact Inv_select st n wc wv h
  | updateOp n sc sv wc wv => exact Inv_update st n sc sv wc wv h
  | deleteOp n wc wv => exact Inv_delete st n wc wv h

theorem Inv_init : Inv initState := by
  refine ⟨?_, ?_, ?_⟩ <;> intro u <;> simp [initState, List.lookup]

theorem Inv_reachable {st : DBState} (h : Reachable st) : Inv st := by
  obtain ⟨ops, rfl⟩ := h
  rw [runOps]
  have : ∀ (l : List Op) (s : DBState), Inv s → Inv (l.foldl applyOp s) := by
    intro l
    induction l with
    | nil => intro s hs; exact hs
    | cons op rest ih =>
        intro s hs
        exact ih _ (Inv_applyOp s op hs)
  exact this ops initState Inv_init

/-- Claim C1: after `drop_table("t")`, a `select` against `t` repeating a
cached key returns the stale cached rows instead of failing with
`TableNotFoundError`; only uncached keys fail. -/
theorem claim_C1_evaluation :
    (List.lookup "t" (runOps [Op.createTable "t" ["a:int"], Op.insertOp "t" ["1"],
        Op.selectOp "t" none none, Op.dropTable "t"]).tables = none) ∧
    get_table (runOps [Op.createTable "t" ["a:int"], Op.insertOp "t" ["1"],
        Op.selectOp "t" none none, Op.dropTable "t"]) "t" =
      .error (.tableNotFound "Таблица \"t\" не существует.") ∧
    (select (runOps [Op.createTable "t" ["a:int"], Op.insertOp "t" ["1"],
        Op.selectOp "t" none none, Op.dropTable "t"]) "t" none none).1 =
      .ok [[("ID", Value.int 1), ("a", Value.int 1)]] ∧
    (select (runOps [Op.createTable "t" ["a:int"], Op.insertOp "t" ["1"],
        Op.selectOp "t" none none, Op.dropTable "t"]) "t" (some "a") (some "1")).1 =
      .error (.tableNotFound "Таблица \"t\" не существует.") := by decide

/-- Claim C2 counterexample: `update` with `set_column = "ID"` rewrites the
record's ID from 1 to 5. -/
theorem claim_C2_counterexample :
    load_table_data (runOps [Op.createTable "t" ["name:str"], Op.insertOp "t" ["Alice"]]) "t" =
      [[("ID", Value.int 1), ("name", Value.str "Alice")]] ∧
    load_table_data (runOps [Op.createTable "t" ["name:str"], Op.insertOp "t" ["Alice"],
        Op.updateOp "t" "ID" "5" "name" "Alice"]) "t" =
      [[("ID", Value.int 5), ("name", Value.str "Alice")]] := by decide

/-- Claim C2 (amended): provided `set_column` is not the literal `"ID"`,
`update` never changes any record's ID, and rows of other tables are
untouched. -/
theorem claim_C2_amended (st : DBState) (t sc sv wc wv : String) (hsc : sc ≠ "ID") :
    List.Forall₂ (fun r r' : Record => List.lookup "ID" r' = List.lookup "ID" r)
      (load_table_data st t) (load_table_data (update st t sc sv wc wv).2 t) ∧
    (∀ u, u ≠ t → load_table_data (update st t sc sv wc wv).2 u = load_table_data st u) := by
  have hrefl : ∀ (l : List Record),
      List.Forall₂ (fun r r' : Record => List.lookup "ID" r' = List.lookup "ID" r) l l :=
    fun l => List.forall₂_same.mpr (fun x _ => rfl)
  unfold update
  cases hl : List.lookup t st.tables with
  | none =>
      simp only [hl]
      exact ⟨hrefl _, by intro u hu; trivial⟩
  | some tbl =>
      simp only [hl]
      cases hgs : tbl.get_column sc with
      | none =>
          simp only [hgs]
          exact ⟨hrefl _, by intro u hu; trivial⟩
      | some set_col =>
          simp only [hgs]
          cases hgw : tbl.get_column wc with
          | none =>
              simp only [hgw]
              exact ⟨hrefl _, by intro u hu; trivial⟩
          | some where_col =>
              simp only [hgw]
              cases hvw : _validate_value wv where_col.type with
              | error e =>
                  simp only [hvw]
                  exact ⟨hrefl _, by intro u hu; trivial⟩
              | ok typed_where =>
                  simp only [hvw]
                  cases hvs : _validate_value sv set_col.type with
                  | error e =>
                      simp only [hvs]
                      exact ⟨hrefl _, by intro u hu; trivial⟩
                  | ok typed_set =>
                      simp only [hvs]
                      by_cases hz : (List.filterMap (fun r => if recordHit wc typed_where r
                          then some (idVal (pySet r sc typed_set)) else none)
                          (load_table_data st t)).isEmpty
                      · rw [if_pos hz]
                        exact ⟨hrefl _, by intro u hu; trivial⟩
                      · rw [if_neg hz]
                        constructor
                        · have hload : load_table_data { st with
                              loads := st.loads + 1,
                              rows := pySet st.rows t (List.map (fun r =>
                                if recordHit wc typed_where r then pySet r sc typed_set else r)
                                (load_table_data st t)),
                              cache := [] } t =
                              List.map (fun r => if recordHit wc typed_where r
                                then pySet r sc typed_set else r) (load_table_data st t) := by
                            rw [load_table_data]
                            simp [lookup_pySet_self]
                          rw [hload, List.forall₂_map_right_iff]
                          refine List.forall₂_same.mpr ?_
                          intro r hr
                          by_cases hhit : recordHit wc typed_where r
                          · simp only [if_pos hhit]
                            exact lookup_pySet_ne r (Ne.symm hsc) typed_set
                          · simp only [if_neg hhit]
                        · intro u hu
                          rw [load_table_data, load_table_data]
                          simp only [lookup_pySet_ne _ hu]
                          rfl

/-- Claim C2 witness: a concrete update that does not target ID keeps all
IDs in place. -/
theorem claim_C2_amended_witness :
    List.Forall₂ (fun r r' : Record => List.lookup "ID" r' = List.lookup "ID" r)
      (load_table_data (runOps [Op.createTable "t" ["name:str"], Op.insertOp "t" ["Alice"]]) "t")
      (load_table_data (update (runOps [Op.createTable "t" ["name:str"], Op.insertOp "t" ["Alice"]])
        "t" "name" "Bob" "name" "Alice").2 "t") ∧
    (∀ u, u ≠ "t" →
      load_table_data (update (runOps [Op.createTable "t" ["name:str"], Op.insertOp "t" ["Alice"]])
        "t" "name" "Bob" "name" "Alice").2 u =
      load_table_data (runOps [Op.createTable "t" ["name:str"], Op.insertOp "t" ["Alice"]]) u) :=
  claim_C2_amended _ "t" "name" "Bob" "name" "Alice" (by decide)

/-- Claim C3 counterexample: `create_table` accepts a caller-supplied
`ID:int` spec and produces duplicate `ID` columns. -/
theorem claim_C3_counterexample :
    get_table (create_table initState "t" ["ID:int"]).2 "t" =
      .ok ⟨"t", [⟨"ID", "int"⟩, ⟨"ID", "int"⟩]⟩ ∧
    ¬ (([⟨"ID", "int"⟩, ⟨"ID", "int"⟩] : List Column).map Column.name).Nodup := by decide

/-- Claim C3 (amended): for valid specs whose names are duplicate-free and
do not include `ID`, the created table (as returned by `get_table`) has
first column `ID:int` and unique column names. -/
theorem claim_C3_amended (st : DBState) (t : String) (specs : List String) (cols : List Column)
    (hl : List.lookup t st.tables = none) (hp : parseSpecs specs = .ok cols)
    (hid : "ID" ∉ cols.map Column.name) (hnd : (cols.map Column.name).Nodup) :
    get_table (create_table st t specs).2 t = .ok (Table.new t cols) ∧
    (Table.new t cols).columns.head? = some ⟨"ID", "int"⟩ ∧
    ((Table.new t cols).columns.map Column.name).Nodup := by
  refine ⟨?_, rfl, ?_⟩
  · unfold create_table
    simp only [hl, hp]
    unfold get_table
    simp only [lookup_pySet_self]
  · simp only [Table.new, List.map_cons, List.nodup_cons]
    exact ⟨by simpa using hid, hnd⟩

/-- Claim C3 witness: a concrete two-column table. -/
theorem claim_C3_amended_witness :
    get_table (create_table initState "u" ["a:int", "b:str"]).2 "u" =
      .ok (Table.new "u" [⟨"a", "int"⟩, ⟨"b", "str"⟩]) ∧
    (Table.new "u" [⟨"a", "int"⟩, ⟨"b", "str"⟩]).columns.head? = some ⟨"ID", "int"⟩ ∧
    ((Table.new "u" [⟨"a", "int"⟩, ⟨"b", "str"⟩]).columns.map Column.name).Nodup :=
  claim_C3_amended initState "u" ["a:int", "b:str"] [⟨"a", "int"⟩, ⟨"b", "str"⟩]
    (by decide) (by decide) (by decide) (by decide)

/-- Claim C4 counterexample: with a caller-supplied `ID:int` column, the
insert loop overwrites the freshly assigned ID with the positional value,
so an empty table receives a first record with ID 7 (and the success
message still reports ID=1). -/
theorem claim_C4_counterexample :
    load_table_data (runOps [Op.createTable "t" ["ID:int"]]) "t" = [] ∧
    (insert (runOps [Op.createTable "t" ["ID:int"]]) "t" ["7"]).1 =
      .ok "Запись с ID=1 успешно добавлена в таблицу \"t\"." ∧
    load_table_data (insert (runOps [Op.createTable "t" ["ID:int"]]) "t" ["7"]).2 "t" =
      [[("ID", Value.int 7)]] := by decide

/-- Claim C4 (amended): provided no user column is named `ID`, insert
assigns the new record ID `max(existing IDs) + 1` (1 when the table is
empty), appends the record, and the new ID is strictly above every
existing ID. -/
theorem claim_C4_amended (st : DBState) (t : String) (tbl : Table) (values : List String)
    (rec : Record)
    (htbl : List.lookup t st.tables = some tbl)
    (hlen : values.length = tbl.columns.length - 1)
    (hid : "ID" ∉ (tbl.columns.drop 1).map Column.name)
    (hb : buildFields [("ID", .int (if (load_table_data st t).isEmpty then 1
      else maxIds (load_table_data st t) + 1))] (values.zip (tbl.columns.drop 1)) = .ok rec) :
    (insert st t values).1 = .ok ("Запись с ID=" ++
        toString (if (load_table_data st t).isEmpty then (1 : Int)
          else maxIds (load_table_data st t) + 1) ++
        " успешно добавлена в таблицу \"" ++ t ++ "\".") ∧
    load_table_data (insert st t values).2 t = load_table_data st t ++ [rec] ∧
    List.lookup "ID" rec = some (.int (if (load_table_data st t).isEmpty then 1
      else maxIds (load_table_data st t) + 1)) ∧
    (∀ r ∈ load_table_data st t, idVal r < (if (load_table_data st t).isEmpty then 1
      else maxIds (load_table_data st t) + 1)) := by
  have hpair : ∀ p ∈ values.zip (tbl.columns.drop 1), p.2.name ≠ "ID" := by
    intro p hp hpn
    exact hid (List.mem_map.mpr ⟨p.2, (List.of_mem_zip hp).2, hpn⟩)
  refine ⟨?_, ?_, ?_, ?_⟩
  · unfold insert
    simp only [htbl]
    rw [if_neg (fun hne => hne hlen), hb]
  · unfold insert
    simp only [htbl]
    rw [if_neg (fun hne => hne hlen), hb]
    rw [load_table_data]
    simp [lookup_pySet_self]
  · rw [buildFields_lookup_preserve (values.zip (tbl.columns.drop 1)) _ rec hpair hb]
    simp [List.lookup]
  · intro r hr
    rcases hemp : load_table_data st t with _ | ⟨a, l⟩
    · rw [hemp] at hr
      exact absurd hr (List.not_mem_nil r)
    · rw [hemp] at hr
      simp only [List.isEmpty_cons, Bool.false_eq_true, if_false]
      exact lt_maxIds_succ hr

/-- Claim C4 witness: a concrete second insert into a one-record table. -/
theorem claim_C4_amended_witness :
    (insert (runOps [Op.createTable "t" ["a:int"], Op.insertOp "t" ["5"]]) "t" ["8"]).1 =
      .ok ("Запись с ID=" ++
        toString (if (load_table_data (runOps [Op.createTable "t" ["a:int"],
          Op.insertOp "t" ["5"]]) "t").isEmpty then (1 : Int)
          else maxIds (load_table_data (runOps [Op.createTable "t" ["a:int"],
            Op.insertOp "t" ["5"]]) "t") + 1) ++
        " успешно добавлена в таблицу \"" ++ "t" ++ "\".") ∧
    load_table_data (insert (runOps [Op.createTable "t" ["a:int"], Op.insertOp "t" ["5"]])
        "t" ["8"]).2 "t" =
      load_table_data (runOps [Op.createTable "t" ["a:int"], Op.insertOp "t" ["5"]]) "t" ++
        [[("ID", Value.int 2), ("a", Value.int 8)]] ∧
    List.lookup "ID" [(("ID" : String), Value.int 2), (("a" : String), Value.int 8)] =
      some (.int (if (load_table_data (runOps [Op.createTable "t" ["a:int"],
        Op.insertOp "t" ["5"]]) "t").isEmpty then 1
        else maxIds (load_table_data (runOps [Op.createTable "t" ["a:int"],
          Op.insertOp "t" ["5"]]) "t") + 1)) ∧
    (∀ r ∈ load_table_data (runOps [Op.createTable "t" ["a:int"], Op.insertOp "t" ["5"]]) "t",
      idVal r < (if (load_table_data (runOps [Op.createTable "t" ["a:int"],
        Op.insertOp "t" ["5"]]) "t").isEmpty then 1
        else maxIds (load_table_data (runOps [Op.createTable "t" ["a:int"],
          Op.insertOp "t" ["5"]]) "t") + 1)) :=
  claim_C4_amended (runOps [Op.createTable "t" ["a:int"], Op.insertOp "t" ["5"]]) "t"
    ⟨"t", [⟨"ID", "int"⟩, ⟨"a", "int"⟩]⟩ ["8"] [("ID", Value.int 2), ("a", Value.int 8)]
    (by decide) (by decide) (by decide) (by decide)

/-- Claim C6 counterexample: duplicate-name columns of types int and bool
let a coerced int 1 match a stored Python `True` (bool/int cross-type
match), because Python `True == 1`. -/
theorem claim_C6_counterexample :
    List.lookup "t" (runOps [Op.createTable "t" ["a:int", "a:bool"],
        Op.insertOp "t" ["5", "true"]]).tables =
      some ⟨"t", [⟨"ID", "int"⟩, ⟨"a", "int"⟩, ⟨"a", "bool"⟩]⟩ ∧
    Table.get_column ⟨"t", [⟨"ID", "int"⟩, ⟨"a", "int"⟩, ⟨"a", "bool"⟩]⟩ "a" =
      some ⟨"a", "int"⟩ ∧
    _validate_value "1" "int" = .ok (.int 1) ∧
    (select (runOps [Op.createTable "t" ["a:int", "a:bool"], Op.insertOp "t" ["5", "true"]])
        "t" (some "a") (some "1")).1 =
      .ok [[("ID", Value.int 1), ("a", Value.bool true)]] ∧
    (Value.bool true ≠ Value.int 1) := by decide

/-- Claim C6 (amended): in any reachable state, for a table whose column
names are unique, an uncached predicate select returns exactly the records
whose field is literally equal (same type, same value) to the coerced
where-value. -/
theorem claim_C6_amended (st : DBState) (t : String) (tbl : Table) (c v : String)
    (col : Column) (tv : Value)
    (hreach : Reachable st)
    (htbl : List.lookup t st.tables = some tbl)
    (hnodup : (tbl.columns.map Column.name).Nodup)
    (hkey : List.lookup (cacheKey t (some c) (some v)) st.cache = none)
    (hcol : tbl.get_column c = some col)
    (hval : _validate_value v col.type = .ok tv) :
    (select st t (some c) (some v)).1 =
      .ok ((load_table_data st t).filter (fun r => decide (List.lookup c r = some tv))) := by
  unfold select
  simp only [hkey, htbl, hcol, hval]
  have hfilter : (load_table_data st t).filter (recordHit c tv) =
      (load_table_data st t).filter (fun r => decide (List.lookup c r = some tv)) := by
    refine List.filter_congr ?_
    intro r hr
    have hwt := (Inv_reachable hreach).2.2 t tbl htbl r hr
    unfold recordHit
    cases hlk : List.lookup c r with
    | none => simp
    | some x =>
        obtain ⟨col', hcmem, hcname, hty⟩ := hwt c x hlk
        have hcc : col' = col := get_column_unique hnodup hcol hcmem hcname
        subst hcc
        have htv := validate_typeMatches hval
        by_cases hxe : x = tv
        · subst hxe
          simp [(pyEq_iff_eq_of_typeMatches hty htv).mpr rfl]
        · have hpe : x.pyEq tv = false := by
            cases hpe' : x.pyEq tv
            · rfl
            · exact absurd ((pyEq_iff_eq_of_typeMatches hty htv).mp hpe') hxe
          simp [hpe, hxe]
  rw [hfilter]

/-- Claim C6 witness: a concrete select over a duplicate-free table. -/
theorem claim_C6_amended_witness :
    (select (runOps [Op.createTable "t" ["a:int"], Op.insertOp "t" ["1"], Op.insertOp "t" ["2"]])
        "t" (some "a") (some "1")).1 =
      .ok ((load_table_data (runOps [Op.createTable "t" ["a:int"], Op.insertOp "t" ["1"],
        Op.insertOp "t" ["2"]]) "t").filter
          (fun r => decide (List.lookup "a" r = some (Value.int 1)))) :=
  claim_C6_amended (runOps [Op.createTable "t" ["a:int"], Op.insertOp "t" ["1"],
      Op.insertOp "t" ["2"]]) "t" ⟨"t", [⟨"ID", "int"⟩, ⟨"a", "int"⟩]⟩ "a" "1"
    ⟨"a", "int"⟩ (Value.int 1)
    ⟨[Op.createTable "t" ["a:int"], Op.insertOp "t" ["1"], Op.insertOp "t" ["2"]], rfl⟩
    (by decide) (by decide) (by decide) (by decide) (by decide)

/-- Claim C10: with only one of the predicate arguments present, select
ignores the predicate, performs no validation of the column name, and
returns all records in load order (on a cache miss). -/
theorem claim_C10 :
    (∀ (st : DBState) (t : String) (tbl : Table) (c : String),
      List.lookup t st.tables = some tbl →
      List.lookup (cacheKey t (some c) none) st.cache = none →
      (select st t (some c) none).1 = .ok (load_table_data st t)) ∧
    (∀ (st : DBState) (t : String) (tbl : Table) (v : String),
      List.lookup t st.tables = some tbl →
      List.lookup (cacheKey t none (some v)) st.cache = none →
      (select st t none (some v)).1 = .ok (load_table_data st t)) := by
  constructor
  · intro st t tbl c htbl hkey
    unfold select
    simp only [hkey, htbl]
  · intro st t tbl v htbl hkey
    unfold select
    simp only [hkey, htbl]

/-- Claim C10 witness: `where_column` set to a non-existent column with an
absent `where_value` still returns every record. -/
theorem claim_C10_witness :
    (select (runOps [Op.createTable "t" ["a:int"], Op.insertOp "t" ["1"]])
        "t" (some "bogus") none).1 =
      .ok (load_table_data (runOps [Op.createTable "t" ["a:int"], Op.insertOp "t" ["1"]]) "t") :=
  claim_C10.1 (runOps [Op.createTable "t" ["a:int"], Op.insertOp "t" ["1"]]) "t"
    ⟨"t", [⟨"ID", "int"⟩, ⟨"a", "int"⟩]⟩ "bogus" (by decide) (by decide)

/-- Claim C8: update and delete whose predicate (after successful column
and value validation) matches no record fail with `RecordNotFoundError`
and leave the schema store, the row store and the cache exactly as they
were (only the ghost read counter advances — nothing is saved). -/
theorem claim_C8 :
    (∀ (st : DBState) (t sc sv wc wv : String) (tbl : Table) (set_col where_col : Column)
      (tw ts : Value),
      List.lookup t st.tables = some tbl →
      tbl.get_column sc = some set_col →
      tbl.get_column wc = some where_col →
      _validate_value wv where_col.type = .ok tw →
      _validate_value sv set_col.type = .ok ts →
      (∀ r ∈ load_table_data st t, recordHit wc tw r = false) →
      update st t sc sv wc wv =
        (.error (.recordNotFound ("Записи с условием " ++ wc ++ "=" ++ wv ++ " не найдены")),
          { st with loads := st.loads + 1 })) ∧
    (∀ (st : DBState) (t wc wv : String) (tbl : Table) (col : Column) (tv : Value),
      List.lookup t st.tables = some tbl →
      tbl.get_column wc = some col →
      _validate_value wv col.type = .ok tv →
      (∀ r ∈ load_table_data st t, recordHit wc tv r = false) →
      delete st t wc wv =
        (.error (.recordNotFound ("Записи с условием " ++ wc ++ "=" ++ wv ++ " не найдены")),
          { st with loads := st.loads + 1 })) := by
  constructor
  · intro st t sc sv wc wv tbl set_col where_col tw ts htbl hgs hgw hvw hvs hz
    unfold update
    simp only [htbl, hgs, hgw, hvw, hvs]
    have hnil : List.filterMap (fun r => if recordHit wc tw r
        then some (idVal (pySet r sc ts)) else none) (load_table_data st t) = [] := by
      refine List.filterMap_eq_nil_iff.mpr ?_
      intro r hr
      rw [if_neg]
      simp [hz r hr]
    rw [hnil]
    rfl
  · intro st t wc wv tbl col tv htbl hg hv hz
    unfold delete
    simp only [htbl, hg, hv]
    have hnil : (load_table_data st t).filter (recordHit wc tv) = [] := by
      refine List.filter_eq_nil_iff.mpr ?_
      intro r hr
      simp [hz r hr]
    rw [hnil]
    rfl

/-- Claim C8 witness: an update and a delete matching nothing leave a
one-record table untouched. -/
theorem claim_C8_witness :
    update (runOps [Op.createTable "t" ["a:int"], Op.insertOp "t" ["1"]]) "t" "a" "2" "a" "99" =
      (.error (.recordNotFound ("Записи с условием " ++ "a" ++ "=" ++ "99" ++ " не найдены")),
        { runOps [Op.createTable "t" ["a:int"], Op.insertOp "t" ["1"]] with
          loads := (runOps [Op.createTable "t" ["a:int"], Op.insertOp "t" ["1"]]).loads + 1 }) ∧
    delete (runOps [Op.createTable "t" ["a:int"], Op.insertOp "t" ["1"]]) "t" "a" "99" =
      (.error (.recordNotFound ("Записи с условием " ++ "a" ++ "=" ++ "99" ++ " не найдены")),
        { runOps [Op.createTable "t" ["a:int"], Op.insertOp "t" ["1"]] with
          loads := (runOps [Op.createTable "t" ["a:int"], Op.insertOp "t" ["1"]]).loads + 1 }) :=
  ⟨claim_C8.1 (runOps [Op.createTable "t" ["a:int"], Op.insertOp "t" ["1"]]) "t" "a" "2" "a" "99"
      ⟨"t", [⟨"ID", "int"⟩, ⟨"a", "int"⟩]⟩ ⟨"a", "int"⟩ ⟨"a", "int"⟩ (Value.int 99) (Value.int 2)
      (by decide) (by decide) (by decide) (by decide) (by decide) (by decide),
    claim_C8.2 (runOps [Op.createTable "t" ["a:int"], Op.insertOp "t" ["1"]]) "t" "a" "99"
      ⟨"t", [⟨"ID", "int"⟩, ⟨"a", "int"⟩]⟩ ⟨"a", "int"⟩ (Value.int 99)
      (by decide) (by decide) (by decide) (by decide)⟩

theorem parseSpecs_error_mem : ∀ (specs : List String) (e : DBError),
    parseSpecs specs = .error e → ∃ s ∈ specs, parseSpec s = .error e
  | [], e, h => by simp [parseSpecs] at h
  | s :: rest, e, h => by
      unfold parseSpecs at h
      cases hs : parseSpec s with
      | error e0 =>
          rw [hs] at h
          injection h with h
          exact ⟨s, List.mem_cons_self _ _, by rw [hs, h]⟩
      | ok c =>
          rw [hs] at h
          cases hr : parseSpecs rest with
          | error e1 =>
              rw [hr] at h
              injection h with h
              obtain ⟨s', hmem, hps⟩ := parseSpecs_error_mem rest e1 hr
              exact ⟨s', List.mem_cons_of_mem _ hmem, by rw [hps, h]⟩
          | ok cs =>
              rw [hr] at h
              exact absurd h (by simp)

theorem parseSpec_error_shape (s : String) (e : DBError) (h : parseSpec s = .error e) :
    e = .valueError ("Некорректное значение: " ++ s ++ ". Попробуйте снова.") ∨
    ∃ nm ty : List Char, splitFirstColon s.data = some (nm, ty) ∧
      e = .valueError ("Некорректное значение: " ++ (⟨ty⟩ : String) ++ ". Попробуйте снова.") := by
  unfold parseSpec at h
  cases hsp : splitFirstColon s.data with
  | none =>
      rw [hsp] at h
      injection h with h
      exact Or.inl h.symm
  | some p =>
      obtain ⟨nm, ty⟩ := p
      rw [hsp] at h
      dsimp only at h
      by_cases h0 : (⟨nm⟩ : String) = "" ∨ (⟨ty⟩ : String) = ""
      · rw [if_pos h0] at h
        injection h with h
        exact Or.inl h.symm
      · rw [if_neg h0] at h
        by_cases h1 : VALID_TYPES.contains (⟨ty⟩ : String) = true
        · rw [if_pos h1] at h
          exact absurd h (by simp)
        · rw [if_neg h1] at h
          injection h with h
          exact Or.inr ⟨nm, ty, rfl, h.symm⟩

/-- Claim C9 counterexample: an invalid column type makes `create_table`
fail with the built-in `ValueError` (not a `ValidationError`), and the
message names only the offending type portion `float`, not the full spec
`age:float`; the state is untouched. -/
theorem claim_C9_counterexample :
    create_table initState "t" ["age:float"] =
      (.error (.valueError "Некорректное значение: float. Попробуйте снова."), initState) := by
  decide

/-- Claim C9 (amended): every spec rejected by the parsing loop makes
`create_table` fail with a Python `ValueError` whose message names the
offending spec, or only its type portion when the type alone is invalid;
nothing is added to the schema store. -/
theorem claim_C9_amended (st : DBState) (t : String) (specs : List String) (e : DBError)
    (hl : List.lookup t st.tables = none) (hp : parseSpecs specs = .error e) :
    create_table st t specs = (.error e, st) ∧
    ∃ s ∈ specs, parseSpec s = .error e ∧
      (e = .valueError ("Некорректное значение: " ++ s ++ ". Попробуйте снова.") ∨
       ∃ nm ty : List Char, splitFirstColon s.data = some (nm, ty) ∧
         e = .valueError ("Некорректное значение: " ++ (⟨ty⟩ : String) ++ ". Попробуйте снова.")) := by
  constructor
  · unfold create_table
    simp only [hl, hp]
  · obtain ⟨s, hmem, hps⟩ := parseSpecs_error_mem specs e hp
    exact ⟨s, hmem, hps, parseSpec_error_shape s e hps⟩

/-- Claim C9 witness: the `age:float` spec concretely. -/
theorem claim_C9_amended_witness :
    create_table initState "t" ["age:float"] =
      (.error (.valueError "Некорректное значение: float. Попробуйте снова."), initState) ∧
    ∃ s ∈ ["age:float"],
      parseSpec s = .error (.valueError "Некорректное значение: float. Попробуйте снова.") ∧
      ((.valueError "Некорректное значение: float. Попробуйте снова." : DBError) =
        .valueError ("Некорректное значение: " ++ s ++ ". Попробуйте снова.") ∨
       ∃ nm ty : List Char, splitFirstColon s.data = some (nm, ty) ∧
         (.valueError "Некорректное значение: float. Попробуйте снова." : DBError) =
          .valueError ("Некорректное значение: " ++ (⟨ty⟩ : String) ++ ". Попробуйте снова.")) :=
  claim_C9_amended initState "t" ["age:float"]
    (.valueError "Некорректное значение: float. Попробуйте снова.") (by decide) (by decide)

/-- Claim C5: a repeated identical select returns the identical result
without touching the row store (the state, including the read counter, is
unchanged); every successful insert, update or delete empties the whole
cache; and a select against an empty cache re-reads the row store. -/
theorem claim_C5 :
    (∀ (st : DBState) (t : String) (wc wv : Option String) (res : List Record) (st' : DBState),
      select st t wc wv = (.ok res, st') → select st' t wc wv = (.ok res, st')) ∧
    (∀ (st : DBState) (t : String) (vals : List String) (m : String) (st' : DBState),
      insert st t vals = (.ok m, st') → st'.cache = []) ∧
    (∀ (st : DBState) (t sc sv wc wv : String) (m : String) (st' : DBState),
      update st t sc sv wc wv = (.ok m, st') → st'.cache = []) ∧
    (∀ (st : DBState) (t wc wv : String) (m : String) (st' : DBState),
      delete st t wc wv = (.ok m, st') → st'.cache = []) ∧
    (∀ (st : DBState) (t : String) (tbl : Table), st.cache = [] →
      List.lookup t st.tables = some tbl →
      (select st t none none).2.loads = st.loads + 1) := by
  refine ⟨?_, ?_, ?_, ?_, ?_⟩
  · intro st t wc wv res st' h
    unfold select at h ⊢
    dsimp only at h ⊢
    split at h
    · rename_i r0 heq
      rw [Prod.mk.injEq] at h
      obtain ⟨h1, h2⟩ := h
      injection h1 with h1
      subst h1
      subst h2
      simp only [heq]
    · rename_i heq
      split at h
      · simp at h
      · rename_i tbl heqt
        split at h
        · rename_i c v
          split at h
          · simp at h
          · rename_i col heqc
            split at h
            · simp at h
            · rename_i tv heqv
              rw [Prod.mk.injEq] at h
              obtain ⟨h1, h2⟩ := h
              injection h1 with h1
              subst h1
              subst h2
              simp only [lookup_pySet_self]
        · rw [Prod.mk.injEq] at h
          obtain ⟨h1, h2⟩ := h
          injection h1 with h1
          subst h1
          subst h2
          simp only [lookup_pySet_self]
  · intro st t vals m st' h
    unfold insert at h
    dsimp only at h
    split at h
    · simp at h
    · split at h
      · simp at h
      · split at h
        · simp at h
        · rw [Prod.mk.injEq] at h
          rw [← h.2]
  · intro st t sc sv wc wv m st' h
    unfold update at h
    dsimp only at h
    split at h
    · simp at h
    · split at h
      · simp at h
      · split at h
        · simp at h
        · split at h
          · simp at h
          · split at h
            · simp at h
            · split at h
              · simp at h
              · rw [Prod.mk.injEq] at h
                rw [← h.2]
  · intro st t wc wv m st' h
    unfold delete at h
    dsimp only at h
    split at h
    · simp at h
    · split at h
      · simp at h
      · split at h
        · simp at h
        · split at h
          · simp at h
          · rw [Prod.mk.injEq] at h
            rw [← h.2]
  · intro st t tbl hc htbl
    unfold select
    simp only [hc, List.lookup_nil, htbl]

/-- Claim C5 witness: a concrete cache hit, three concrete cache
invalidations and one concrete recomputation. -/
theorem claim_C5_witness :
    select (select (runOps [Op.createTable "t" ["a:int"], Op.insertOp "t" ["1"]]) "t" none none).2
        "t" none none =
      (.ok [[("ID", Value.int 1), ("a", Value.int 1)]],
        (select (runOps [Op.createTable "t" ["a:int"], Op.insertOp "t" ["1"]]) "t" none none).2) ∧
    (insert (runOps [Op.createTable "t" ["a:int"], Op.insertOp "t" ["1"]]) "t" ["2"]).2.cache = [] ∧
    (update (runOps [Op.createTable "t" ["a:int"], Op.insertOp "t" ["1"]])
      "t" "a" "3" "a" "1").2.cache = [] ∧
    (delete (runOps [Op.createTable "t" ["a:int"], Op.insertOp "t" ["1"]]) "t" "a" "1").2.cache = [] ∧
    (select (runOps [Op.createTable "t" ["a:int"], Op.insertOp "t" ["1"]]) "t" none none).2.loads =
      (runOps [Op.createTable "t" ["a:int"], Op.insertOp "t" ["1"]]).loads + 1 :=
  ⟨claim_C5.1 (runOps [Op.createTable "t" ["a:int"], Op.insertOp "t" ["1"]]) "t" none none
      [[("ID", Value.int 1), ("a", Value.int 1)]]
      (select (runOps [Op.createTable "t" ["a:int"], Op.insertOp "t" ["1"]]) "t" none none).2
      (by decide),
    claim_C5.2.1 (runOps [Op.createTable "t" ["a:int"], Op.insertOp "t" ["1"]]) "t" ["2"]
      "Запись с ID=2 успешно добавлена в таблицу \"t\"."
      (insert (runOps [Op.createTable "t" ["a:int"], Op.insertOp "t" ["1"]]) "t" ["2"]).2
      (by decide),
    claim_C5.2.2.1 (runOps [Op.createTable "t" ["a:int"], Op.insertOp "t" ["1"]]) "t" "a" "3" "a" "1"
      "Запись с ID=1 в таблице \"t\" успешно обновлена."
      (update (runOps [Op.createTable "t" ["a:int"], Op.insertOp "t" ["1"]]) "t" "a" "3" "a" "1").2
      (by decide),
    claim_C5.2.2.2.1 (runOps [Op.createTable "t" ["a:int"], Op.insertOp "t" ["1"]]) "t" "a" "1"
      "Запись с ID=1 успешно удалена из таблицы \"t\"."
      (delete (runOps [Op.createTable "t" ["a:int"], Op.insertOp "t" ["1"]]) "t" "a" "1").2
      (by decide),
    claim_C5.2.2.2.2 (runOps [Op.createTable "t" ["a:int"], Op.insertOp "t" ["1"]]) "t"
      ⟨"t", [⟨"ID", "int"⟩, ⟨"a", "int"⟩]⟩ (by decide) (by decide)⟩

/-- Claim C7: bool coercion is case-insensitive with exactly the sets
true/1/yes mapping to true and false/0/no mapping to false, anything else
failing with ValidationError; int coercion succeeds exactly on base-10
integer literals (pyInt) and yields ValidationError otherwise; any type
tag outside int/str/bool fails with ValidationError. -/
theorem claim_C7 :
    (∀ s : String, _validate_value s "bool" = .ok (.bool true) ↔
      (pyLower s = "true" ∨ pyLower s = "1" ∨ pyLower s = "yes")) ∧
    (∀ s : String, _validate_value s "bool" = .ok (.bool false) ↔
      (pyLower s = "false" ∨ pyLower s = "0" ∨ pyLower s = "no")) ∧
    (∀ s : String, ¬(pyLower s = "true" ∨ pyLower s = "1" ∨ pyLower s = "yes") →
      ¬(pyLower s = "false" ∨ pyLower s = "0" ∨ pyLower s = "no") →
      _validate_value s "bool" = .error (.validationError
        ("Не удалось преобразовать '" ++ s ++ "' в тип bool: Некорректное булево значение: " ++ s))) ∧
    (∀ (s : String) (n : Int), _validate_value s "int" = .ok (.int n) ↔ pyInt s = some n) ∧
    (∀ s : String, pyInt s = none → _validate_value s "int" = .error (.validationError
      ("Не удалось преобразовать '" ++ s ++ "' в тип int"))) ∧
    (∀ ty : String, ty ≠ "int" → ty ≠ "str" → ty ≠ "bool" → ∀ s : String,
      _validate_value s ty = .error (.validationError ("Неизвестный тип: " ++ ty))) := by
  refine ⟨?_, ?_, ?_, ?_, ?_, ?_⟩
  · intro s
    by_cases h1 : pyLower s = "true" ∨ pyLower s = "1" ∨ pyLower s = "yes"
    · rcases h1 with h | h | h <;> simp [_validate_value, h]
    · by_cases h2 : pyLower s = "false" ∨ pyLower s = "0" ∨ pyLower s = "no"
      · rcases h2 with h | h | h <;> simp [_validate_value, h]
      · simp only [_validate_value]
        norm_num
        rw [if_neg h1, if_neg h2]
        constructor
        · intro hcon
          exact absurd hcon (by simp)
        · intro hcon
          exact absurd hcon h1
  · intro s
    by_cases h1 : pyLower s = "true" ∨ pyLower s = "1" ∨ pyLower s = "yes"
    · rcases h1 with h | h | h <;> simp [_validate_value, h]
    · by_cases h2 : pyLower s = "false" ∨ pyLower s = "0" ∨ pyLower s = "no"
      · rcases h2 with h | h | h <;> simp [_validate_value, h]
      · simp only [_validate_value]
        norm_num
        rw [if_neg h1, if_neg h2]
        constructor
        · intro hcon
          exact absurd hcon (by simp)
        · intro hcon
          exact absurd hcon h2
  · intro s h1 h2
    simp only [_validate_value]
    norm_num
    rw [if_neg h1, if_neg h2]
    simp
  · intro s n
    cases hp : pyInt s with
    | some m => simp [_validate_value, hp]
    | none => simp [_validate_value, hp]
  · intro s hp
    simp [_validate_value, hp]
  · intro ty h1 h2 h3 s
    simp [_validate_value, h1, h2, h3]

/-- Claim C7 witness: concrete coercions of each kind. -/
theorem claim_C7_witness :
    _validate_value "TRUE" "bool" = .ok (.bool true) ∧
    _validate_value "nO" "bool" = .ok (.bool false) ∧
    _validate_value "maybe" "bool" = .error (.validationError
      ("Не удалось преобразовать '" ++ "maybe" ++ "' в тип bool: Некорректное булево значение: " ++ "maybe")) ∧
    _validate_value "12" "int" = .ok (.int 12) ∧
    _validate_value "1a" "int" = .error (.validationError
      ("Не удалось преобразовать '" ++ "1a" ++ "' в тип int")) ∧
    _validate_value "x" "float" = .error (.validationError ("Неизвестный тип: " ++ "float")) :=
  ⟨(claim_C7.1 "TRUE").mpr (by decide),
   (claim_C7.2.1 "nO").mpr (by decide),
   claim_C7.2.2.1 "maybe" (by decide) (by decide),
   (claim_C7.2.2.2.1 "12" 12).mpr (by decide),
   claim_C7.2.2.2.2.1 "1a" (by decide),
   claim_C7.2.2.2.2.2 "float" (by decide) (by decide) (by decide) "x"⟩

end PrimDB





